import Mathlib

/-!
Shallow embedding of `cumulus/consensus/src/lib.rs` (`follow_polkadot` and the
interfaces it consumes), for checking the specification's claims.

Modelling choices, traced to the source:

* Header bytes are `List Nat` (one entry per byte).
* The parachain `Header` type, its hash type, the Polkadot client's error
  type `P` and the local client's error type (`ClientError` in the source)
  are abstract type parameters, as in the generic Rust function.
* `parity_codec::Decode::decode(&mut input)` consumes a prefix of the input
  and leaves the rest in the slice; the call sites discard the leftover.
  We model the codec as a function `Bytes → Option (Header × Bytes)`
  (decoded value and remaining bytes) and the call site as keeping only the
  value (`decodeHead`).
* A futures-0.1 `Stream` is modelled by the finite sequence of outcomes its
  successive polls produce: `notReady`, an item, normal end (`done`, i.e.
  `Ready(None)`), or a stream error.  An exhausted list polls as `notReady`.
* The `LocalClient` (`mark_best` / `finalize`) is modelled as a response
  oracle `Nat → Hash → Except C Bool`: the result of the i-th call of that
  operation at the given hash.  The list of hashes passed to the operation,
  in call order, is the observable trace.
* `for_each` over the mapped stream is `followerPoll`: one poll of the
  follower future, which drains every ready item (futures 0.1 `for_each`
  loops until `NotReady`, `Ready(None)` or an error).
* `Future::join` polls its first child, then (if the first did not error)
  its second, and is ready when both are; an error from either child is the
  join's error and ends it immediately (`joinPoll`).
* The surrounding task (`runTask` / `follow_polkadot`) polls the join until
  it resolves, within a poll budget (`fuel`); `map_err(|e| warn!(..))`
  records the error value as the log entry and erases it to `()`, and the
  final `map` shapes the success value, so the task resolves to
  `Except.ok ()` or `Except.error ()` together with an optional logged
  error.
-/

namespace CumulusConsensus

/-- Head data bytes, as in `head_data: Vec<u8>`. -/
abbrev Bytes : Type := List Nat

/-- A parachain head update (`struct HeadUpdate`): relay-chain provenance plus
the opaque encoded parachain header. -/
structure HeadUpdate (PH PN : Type) where
  relay_hash : PH
  relay_number : PN
  head_data : Bytes
deriving DecidableEq

/-- Errors that can occur while following the relay chain (`enum Error<P>`),
with the local client error type `C` also kept abstract. -/
inductive Error (P C : Type) where
  | Client (e : C)
  | Polkadot (e : P)
  | InvalidHeadData
deriving DecidableEq

/-- A codec in the parity-codec style: decode a value from a prefix of the
input, returning the value and the remaining bytes, or fail. -/
def DecodeRaw (Header : Type) : Type := Bytes → Option (Header × Bytes)

/-- The decode call site `Header::decode(&mut &data[..])`: the slice is a
temporary, so whatever bytes remain after a successful decode are dropped
without inspection; only the decoded value is kept. -/
def decodeHead {Header : Type} (d : DecodeRaw Header) (b : Bytes) : Option Header :=
  (d b).map Prod.fst

/-- One poll outcome of a futures-0.1 stream with item type `A` and error
type `P`. -/
inductive StreamPoll (P A : Type) where
  | notReady
  | item (a : A)
  | done
  | err (e : P)
deriving DecidableEq

/-- Resolution of one poll of a follower future. -/
inductive PollOut (P C : Type) where
  | notReady
  | ready
  | error (e : Error P C)
deriving DecidableEq

variable {Header Hash P C A PH PN : Type}

/-- One poll of a follower future
(`stream.map_err(Error::Polkadot).and_then(decode...).for_each(action)`):
drain ready items, decoding each (`and_then`) and calling the local client
operation with the decoded header's hash (`for_each` body), until the stream
is not ready, ends, or a stream / decode / client error stops the future.
Arguments `n` and `calls` are the number of client calls made so far and the
hashes passed so far, threaded through;
the result carries the poll outcome, the remaining stream polls, and the
updated call count and trace. -/
def followerPoll (decode : Bytes → Option Header) (hashOf : Header → Hash)
    (extract : A → Bytes) (resp : Nat → Hash → Except C Bool) :
    List (StreamPoll P A) → Nat → List Hash →
      PollOut P C × List (StreamPoll P A) × Nat × List Hash
  | [], n, calls => (.notReady, [], n, calls)
  | .notReady :: rest, n, calls => (.notReady, rest, n, calls)
  | .done :: rest, n, calls => (.ready, rest, n, calls)
  | .err e :: rest, n, calls => (.error (.Polkadot e), rest, n, calls)
  | .item a :: rest, n, calls =>
    match decode (extract a) with
    | none => (.error .InvalidHeadData, rest, n, calls)
    | some h =>
      match resp n (hashOf h) with
      | .error ce => (.error (.Client ce), rest, n + 1, calls ++ [hashOf h])
      | .ok _ => followerPoll decode hashOf extract resp rest (n + 1) (calls ++ [hashOf h])

/-- Joint state of the two followers inside `follow_best.join(follow_finalized)`:
for each side the remaining stream polls, the client-call count, the trace of
hashes passed to its client operation (`mark_best` for side `a`, `finalize`
for side `b`), and whether that child future has already resolved. -/
structure JoinSt (P PH PN Hash : Type) where
  aPolls : List (StreamPoll P (HeadUpdate PH PN))
  aN : Nat
  aCalls : List Hash
  aDone : Bool
  bPolls : List (StreamPoll P Bytes)
  bN : Nat
  bCalls : List Hash
  bDone : Bool
deriving DecidableEq

/-- Resolution of one poll of the joined future. -/
inductive JoinOut (P C : Type) where
  | notReady
  | ready
  | error (e : Error P C)
deriving DecidableEq

/-- One side of the join: poll the child future unless it already resolved.
Returns the error if the child erred, else the updated resolved flag, stream
polls, call count and trace. -/
def sidePoll (decode : Bytes → Option Header) (hashOf : Header → Hash)
    (extract : A → Bytes) (resp : Nat → Hash → Except C Bool)
    (doneFlag : Bool) (polls : List (StreamPoll P A)) (n : Nat) (calls : List Hash) :
    Option (Error P C) × Bool × List (StreamPoll P A) × Nat × List Hash :=
  if doneFlag then (none, true, polls, n, calls)
  else
    match followerPoll decode hashOf extract resp polls n calls with
    | (.error e, rest, n', calls') => (some e, false, rest, n', calls')
    | (.ready, rest, n', calls') => (none, true, rest, n', calls')
    | (.notReady, rest, n', calls') => (none, false, rest, n', calls')

/-- One poll of `follow_best.join(follow_finalized)`: poll the best-head
child first, then — only if it did not err — the finalized child; resolve
with the first error observed, or ready when both children have resolved. -/
def joinPoll (decode : Bytes → Option Header) (hashOf : Header → Hash)
    (respBest respFin : Nat → Hash → Except C Bool) (st : JoinSt P PH PN Hash) :
    JoinOut P C × JoinSt P PH PN Hash :=
  match sidePoll decode hashOf HeadUpdate.head_data respBest st.aDone st.aPolls st.aN st.aCalls with
  | (some e, _, aRest, aN', aCalls') =>
    (.error e, { st with aPolls := aRest, aN := aN', aCalls := aCalls' })
  | (none, aDone', aRest, aN', aCalls') =>
    match sidePoll decode hashOf id respFin st.bDone st.bPolls st.bN st.bCalls with
    | (some e, _, bRest, bN', bCalls') =>
      (.error e, { st with aPolls := aRest, aN := aN', aCalls := aCalls', aDone := aDone',
                           bPolls := bRest, bN := bN', bCalls := bCalls' })
    | (none, bDone', bRest, bN', bCalls') =>
      (if aDone' && bDone' then .ready else .notReady,
       { aPolls := aRest, aN := aN', aCalls := aCalls', aDone := aDone',
         bPolls := bRest, bN := bN', bCalls := bCalls', bDone := bDone' })

/-- Resolution state of the whole task future as its caller sees it. -/
inductive TaskResult where
  | pending
  | completed (r : Except Unit Unit)

instance : DecidableEq TaskResult
  | .pending, .pending => .isTrue rfl
  | .pending, .completed _ => .isFalse (fun h => TaskResult.noConfusion h)
  | .completed _, .pending => .isFalse (fun h => TaskResult.noConfusion h)
  | .completed (.ok ()), .completed (.ok ()) => .isTrue rfl
  | .completed (.ok ()), .completed (.error ()) => .isFalse (by simp)
  | .completed (.error ()), .completed (.ok ()) => .isFalse (by simp)
  | .completed (.error ()), .completed (.error ()) => .isTrue rfl

/-- Drive the joined future for at most `fuel` polls.  On an error the
`map_err(|e| warn!("Could not follow relay-chain: {:?}", e))` records the
error value as the log entry and replaces it by `()`, so the task resolves
to `Except.error ()`; on ready, `map(|((), ())| ())` resolves it to
`Except.ok ()` with nothing logged. -/
def runTask (decode : Bytes → Option Header) (hashOf : Header → Hash)
    (respBest respFin : Nat → Hash → Except C Bool) :
    Nat → JoinSt P PH PN Hash → TaskResult × Option (Error P C) × JoinSt P PH PN Hash
  | 0, st => (.pending, none, st)
  | fuel + 1, st =>
    match joinPoll decode hashOf respBest respFin st with
    | (.ready, st') => (.completed (.ok ()), none, st')
    | (.error e, st') => (.completed (.error ()), some e, st')
    | (.notReady, st') => runTask decode hashOf respBest respFin fuel st'

/-- Initial joint state: both subscriptions freshly acquired, no calls made. -/
def initSt (aPolls : List (StreamPoll P (HeadUpdate PH PN)))
    (bPolls : List (StreamPoll P Bytes)) : JoinSt P PH PN Hash :=
  { aPolls := aPolls, aN := 0, aCalls := [], aDone := false,
    bPolls := bPolls, bN := 0, bCalls := [], bDone := false }

/-- The synchronization task `follow_polkadot`, instantiated at a codec `d`,
a header hash function, the two local-client operations' response oracles,
and the two subscriptions' poll sequences, driven for `fuel` polls. -/
def follow_polkadot (d : DecodeRaw Header) (hashOf : Header → Hash)
    (respBest respFin : Nat → Hash → Except C Bool) (fuel : Nat)
    (aPolls : List (StreamPoll P (HeadUpdate PH PN))) (bPolls : List (StreamPoll P Bytes)) :
    TaskResult × Option (Error P C) × JoinSt P PH PN Hash :=
  runTask (decodeHead d) hashOf respBest respFin fuel (initSt aPolls bPolls)

/-- A concrete one-byte header codec, a legitimate instance of the
prefix-consuming codec contract: the header is the first byte, the rest of
the input is left over. Used to evaluate the model on concrete inputs. -/
def byteDecode : DecodeRaw Nat := fun b =>
  match b with
  | [] => none
  | x :: rest => some (x, rest)

/-- Two response oracles are equivalent when, at every call, they are either
both Ok (with arbitrary boolean values) or both the same error.  The source
binds the call's result to the unused `_synced`, so only the Ok/Err shape
can influence the follower. -/
def RespEquiv (resp₁ resp₂ : Nat → Hash → Except C Bool) : Prop :=
  ∀ n h, (∃ b₁ b₂, resp₁ n h = Except.ok b₁ ∧ resp₂ n h = Except.ok b₂)
    ∨ (∃ e, resp₁ n h = Except.error e ∧ resp₂ n h = Except.error e)

/-- Map a function over the item of a stream poll. -/
def mapPoll {B : Type} (f : A → B) : StreamPoll P A → StreamPoll P B
  | .notReady => .notReady
  | .item a => .item (f a)
  | .done => .done
  | .err e => .err e

/-- Forget a best-head update's provenance: keep only the head bytes, with
trivial provenance. -/
def stripU : HeadUpdate PH PN → HeadUpdate Unit Unit :=
  fun u => ⟨(), (), u.head_data⟩

/-- Forget the best-head provenance throughout a joint state. -/
def stripSt (st : JoinSt P PH PN Hash) : JoinSt P Unit Unit Hash :=
  { aPolls := st.aPolls.map (mapPoll stripU), aN := st.aN, aCalls := st.aCalls,
    aDone := st.aDone, bPolls := st.bPolls, bN := st.bN, bCalls := st.bCalls,
    bDone := st.bDone }

/- ------------------------------------------------------------------ -/
/- Theorems                                                           -/
/- ------------------------------------------------------------------ -/

/-- Draining a run of items that all decode successfully, with a local
client response oracle that never errors: the follower makes one call per
item, passing the decoded headers' hashes in order, and continues with the
rest of the stream. -/
theorem followerPoll_items_drain (decode : Bytes → Option Header) (hashOf : Header → Hash)
    (extract : A → Bytes) (resp : Nat → Hash → Except C Bool)
    (hok : ∀ n h, ∃ b, resp n h = Except.ok b) :
    ∀ (us : List A) (hs : List Header),
      List.Forall₂ (fun u h => decode (extract u) = some h) us hs →
      ∀ (tail : List (StreamPoll P A)) (n : Nat) (calls : List Hash),
        followerPoll decode hashOf extract resp (us.map .item ++ tail) n calls
          = followerPoll decode hashOf extract resp tail (n + us.length) (calls ++ hs.map hashOf) := by
  intro us
  induction us with
  | nil =>
    intro hs hdec tail n calls
    cases hdec
    simp
  | cons u us' ih =>
    intro hs hdec tail n calls
    cases hdec with
    | cons hd tl =>
      rename_i h hs'
      obtain ⟨b, hb⟩ := hok n (hashOf h)
      have e1 : followerPoll (P := P) decode hashOf extract resp
            ((u :: us').map .item ++ tail) n calls
          = followerPoll decode hashOf extract resp (us'.map .item ++ tail) (n + 1)
              (calls ++ [hashOf h]) := by
        simp [followerPoll, hd, hb]
      rw [e1, ih hs' tl tail (n + 1) (calls ++ [hashOf h])]
      have hlen : n + 1 + us'.length = n + (u :: us').length := by
        simp; omega
      rw [hlen]
      simp

/-- C1: for every finite sequence of best-head updates whose head_data bytes
all decode successfully, with mark_best never returning an error, the
synchronization task calls mark_best exactly n times, the i-th call
receiving the hash of the header decoded from the i-th update's head_data,
in order (the mark_best trace is the map of the hash over the decoded
headers, and its length is the number of updates). -/
theorem C1_mark_best_once_per_update_in_order
    (d : DecodeRaw Header) (hashOf : Header → Hash)
    (respBest respFin : Nat → Hash → Except C Bool)
    (us : List (HeadUpdate PH PN)) (hs : List Header)
    (hdec : List.Forall₂ (fun u h => decodeHead d u.head_data = some h) us hs)
    (hok : ∀ n h, ∃ b, respBest n h = Except.ok b) :
    follow_polkadot (P := P) d hashOf respBest respFin 1 (us.map .item ++ [.done]) [.done]
      = (.completed (.ok ()), none,
         { aPolls := [], aN := us.length, aCalls := hs.map hashOf, aDone := true,
           bPolls := [], bN := 0, bCalls := [], bDone := true })
    ∧ (hs.map hashOf).length = us.length := by
  constructor
  · rw [follow_polkadot, runTask]
    have hdrain := followerPoll_items_drain (P := P) (decodeHead d) hashOf
      HeadUpdate.head_data respBest hok us hs hdec [.done] 0 []
    rw [joinPoll, initSt]
    simp only [sidePoll, if_neg (by simp : ¬ (false = true))] at *
    rw [hdrain]
    simp [followerPoll, sidePoll, runTask]
  · have := List.Forall₂.length_eq hdec
    simp [this]

/-- Witness for C1 at a concrete two-update sequence. -/
theorem C1_witness :
    follow_polkadot (P := Nat) (C := Nat) byteDecode (fun h => h)
        (fun _ _ => Except.ok true) (fun _ _ => Except.ok true) 1
        (([⟨0, 0, [5]⟩, ⟨1, 1, [7, 9]⟩] : List (HeadUpdate Nat Nat)).map .item ++ [.done])
        [.done]
      = (.completed (.ok ()), none,
         { aPolls := [], aN := 2, aCalls := [5, 7], aDone := true,
           bPolls := [], bN := 0, bCalls := [], bDone := true })
    ∧ (([5, 7] : List Nat).map (fun h => h)).length = 2 := by
  have := C1_mark_best_once_per_update_in_order (P := Nat) (C := Nat) byteDecode (fun h => h)
    (fun _ _ => Except.ok true) (fun _ _ => Except.ok true)
    [⟨0, 0, [5]⟩, ⟨1, 1, [7, 9]⟩] [5, 7]
    (.cons rfl (.cons rfl .nil)) (fun _ _ => ⟨true, rfl⟩)
  simpa using this

/-- C3: when updates 1..k-1 decode and update k's head_data fails to decode,
mark_best is called exactly k-1 times (one hash per valid update, in order),
the task halts with InvalidHeadData logged and an error result, and neither
the remaining best-head polls nor the finalized subscription is consumed:
no adapter call is made for update k or any later update. -/
theorem C3_halts_on_invalid_head_data
    (d : DecodeRaw Header) (hashOf : Header → Hash)
    (respBest respFin : Nat → Hash → Except C Bool)
    (us : List (HeadUpdate PH PN)) (hs : List Header)
    (hdec : List.Forall₂ (fun u h => decodeHead d u.head_data = some h) us hs)
    (hok : ∀ n h, ∃ b, respBest n h = Except.ok b)
    (bad : HeadUpdate PH PN) (hbad : decodeHead d bad.head_data = none)
    (rest : List (StreamPoll P (HeadUpdate PH PN))) (bPolls : List (StreamPoll P Bytes)) :
    follow_polkadot d hashOf respBest respFin 1 (us.map .item ++ .item bad :: rest) bPolls
      = (.completed (.error ()), some .InvalidHeadData,
         { aPolls := rest, aN := us.length, aCalls := hs.map hashOf, aDone := false,
           bPolls := bPolls, bN := 0, bCalls := [], bDone := false })
    ∧ (hs.map hashOf).length = us.length := by
  constructor
  · rw [follow_polkadot, runTask]
    have hdrain := followerPoll_items_drain (P := P) (decodeHead d) hashOf
      HeadUpdate.head_data respBest hok us hs hdec (.item bad :: rest) 0 []
    rw [joinPoll, initSt]
    simp only [sidePoll, if_neg (by simp : ¬ (false = true))]
    rw [hdrain]
    simp [followerPoll, hbad]
  · have := List.Forall₂.length_eq hdec
    simp [this]

/-- Witness for C3: one valid update, then a malformed one, then a further
item that is never consumed. -/
theorem C3_witness :
    follow_polkadot (C := Nat) byteDecode (fun h => h)
        (fun _ _ => Except.ok true) (fun _ _ => Except.ok true) 1
        (([⟨0, 0, [5]⟩] : List (HeadUpdate Nat Nat)).map .item
          ++ .item ⟨1, 1, []⟩ :: [.item ⟨2, 2, [9]⟩])
        ([.item [4], .done] : List (StreamPoll Nat Bytes))
      = (.completed (.error ()), some .InvalidHeadData,
         { aPolls := [.item ⟨2, 2, [9]⟩], aN := 1, aCalls := [5], aDone := false,
           bPolls := [.item [4], .done], bN := 0, bCalls := [], bDone := false })
    ∧ (([5] : List Nat).map (fun h => h)).length = 1 := by
  have := C3_halts_on_invalid_head_data (P := Nat) (C := Nat) byteDecode (fun h => h)
    (fun _ _ => Except.ok true) (fun _ _ => Except.ok true)
    [⟨0, 0, [5]⟩] [5] (.cons rfl .nil) (fun _ _ => ⟨true, rfl⟩)
    ⟨1, 1, []⟩ rfl [.item ⟨2, 2, [9]⟩] [.item [4], .done]
  simpa using this

/-- C8: each accepted update triggers exactly one adapter call, the
operation of its own subscription — mark_best for best-head updates,
finalize for finalized payloads — with the decoded header's hash, and
within each subscription the calls are issued in arrival order: the
mark_best trace is exactly the hashes of the decoded best-head updates and
the finalize trace exactly those of the finalized payloads. -/
theorem C8_one_call_per_accepted_update
    (d : DecodeRaw Header) (hashOf : Header → Hash)
    (respBest respFin : Nat → Hash → Except C Bool)
    (us : List (HeadUpdate PH PN)) (hs : List Header)
    (hdecA : List.Forall₂ (fun u h => decodeHead d u.head_data = some h) us hs)
    (hokA : ∀ n h, ∃ b, respBest n h = Except.ok b)
    (vs : List Bytes) (gs : List Header)
    (hdecB : List.Forall₂ (fun v g => decodeHead d v = some g) vs gs)
    (hokB : ∀ n h, ∃ b, respFin n h = Except.ok b) :
    follow_polkadot (P := P) d hashOf respBest respFin 1
        (us.map .item ++ [.done]) (vs.map .item ++ [.done])
      = (.completed (.ok ()), none,
         { aPolls := [], aN := us.length, aCalls := hs.map hashOf, aDone := true,
           bPolls := [], bN := vs.length, bCalls := gs.map hashOf, bDone := true })
    ∧ hs.length = us.length ∧ gs.length = vs.length := by
  refine ⟨?_, List.Forall₂.length_eq hdecA |>.symm, List.Forall₂.length_eq hdecB |>.symm⟩
  rw [follow_polkadot, runTask]
  have hdrainA := followerPoll_items_drain (P := P) (decodeHead d) hashOf
    HeadUpdate.head_data respBest hokA us hs hdecA [.done] 0 []
  have hdrainB := followerPoll_items_drain (P := P) (decodeHead d) hashOf
    id respFin hokB vs gs (by simpa [id] using hdecB) [.done] 0 []
  rw [joinPoll, initSt]
  simp only [sidePoll, if_neg (by simp : ¬ (false = true))]
  rw [hdrainA, hdrainB]
  simp [followerPoll, runTask]

/-- Witness for C8: one best-head update and two finalized payloads. -/
theorem C8_witness :
    follow_polkadot (P := Nat) (C := Nat) byteDecode (fun h => h + 10)
        (fun _ _ => Except.ok true) (fun _ _ => Except.ok false) 1
        (([⟨0, 0, [5]⟩] : List (HeadUpdate Nat Nat)).map .item ++ [.done])
        (([[3], [4, 4]] : List Bytes).map .item ++ [.done])
      = (.completed (.ok ()), none,
         { aPolls := [], aN := 1, aCalls := [15], aDone := true,
           bPolls := [], bN := 2, bCalls := [13, 14], bDone := true })
    ∧ ([5] : List Nat).length = 1 ∧ ([3, 4] : List Nat).length = 2 := by
  have := C8_one_call_per_accepted_update (P := Nat) (C := Nat) byteDecode (fun h => h + 10)
    (fun _ _ => Except.ok true) (fun _ _ => Except.ok false)
    [⟨0, 0, [5]⟩] [5] (.cons rfl .nil) (fun _ _ => ⟨true, rfl⟩)
    [[3], [4, 4]] [3, 4] (.cons rfl (.cons rfl .nil)) (fun _ _ => ⟨false, rfl⟩)
  exact ⟨by simpa using this.1, rfl, rfl⟩

/-- C2, counterexample: a remote stream error on the best-head subscription
halts the task, and the value the task yields to its caller is
`completed (Except.error ())` — an error resolution, distinguishable from
the successful completion signal `completed (Except.ok ())` the claim
asserts.  (`map_err` maps the error value to `()`; it does not turn the
error into a success.) -/
theorem C2_counterexample :
    follow_polkadot (C := Nat) byteDecode (fun h => h)
        (fun _ _ => Except.ok true) (fun _ _ => Except.ok true) 1
        ([.err 0] : List (StreamPoll Nat (HeadUpdate Nat Nat))) [.done]
      = (.completed (.error ()), some (.Polkadot 0),
         { aPolls := [], aN := 0, aCalls := [], aDone := false,
           bPolls := [.done], bN := 0, bCalls := [], bDone := false })
    ∧ TaskResult.completed (.error ()) ≠ TaskResult.completed (.ok ()) := by
  refine ⟨rfl, ?_⟩
  simp

/-- C2, amended: whenever either follower halts with an error, the fault is
logged (the log entry is the error value, as the warn line formats it) and
the task resolves to `Except.error ()` — the error value is erased to unit,
but the caller still receives an error resolution, never a success; a
successful resolution occurs only with nothing logged. -/
theorem C2_fault_logged_and_erased_to_unit_error
    (decode : Bytes → Option Header) (hashOf : Header → Hash)
    (respBest respFin : Nat → Hash → Except C Bool)
    (fuel : Nat) (st : JoinSt P PH PN Hash) :
    ((runTask decode hashOf respBest respFin fuel st).1 = .completed (.error ())
      ↔ ∃ e, (runTask decode hashOf respBest respFin fuel st).2.1 = some e)
    ∧ ((runTask decode hashOf respBest respFin fuel st).1 = .completed (.ok ())
      → (runTask decode hashOf respBest respFin fuel st).2.1 = none) := by
  induction fuel generalizing st with
  | zero => simp [runTask]
  | succ n ih =>
    rw [runTask]
    rcases hj : joinPoll (C := C) decode hashOf respBest respFin st with ⟨out, st'⟩
    cases out with
    | ready => simp
    | error e => simp
    | notReady => exact ih st'

/-- Witness for C2's amended statement: the halted concrete run of the
counterexample indeed resolves to the unit error. -/
theorem C2_witness :
    (runTask (P := Nat) (decodeHead byteDecode) (fun h => h)
        (fun _ _ => (Except.ok true : Except Nat Bool)) (fun _ _ => Except.ok true) 1
        (initSt ([.err 0] : List (StreamPoll Nat (HeadUpdate Nat Nat))) [.done])).1
      = .completed (.error ()) :=
  (C2_fault_logged_and_erased_to_unit_error (decodeHead byteDecode) (fun h => h)
    (fun _ _ => Except.ok true) (fun _ _ => Except.ok true) 1
    (initSt [.err 0] [.done])).1.mpr ⟨.Polkadot 0, rfl⟩

/-- C4: if the finalized-head follower stops with a fatal error of any kind
— a remote stream error (Polkadot), a decode failure (InvalidHeadData) or a
finalize adapter error (Client) — while the best-head follower has not
erred (its poll this round resolved with no error: idle, mid-drain or
finished), the task halts at that error the moment it is observed: for any
amount of further fuel, the best-head subscription's remaining polls are
left exactly as the error-observing round left them, its call count and
mark_best trace unchanged — no later best-head item is consumed, even if
items are already queued there. -/
theorem C4_finalized_fault_stops_best_consumption
    (decode : Bytes → Option Header) (hashOf : Header → Hash)
    (respBest respFin : Nat → Hash → Except C Bool) (fuel : Nat)
    (st : JoinSt P PH PN Hash) (e : Error P C) (aDone' : Bool)
    (aRest : List (StreamPoll P (HeadUpdate PH PN))) (aN' : Nat) (aCalls' : List Hash)
    (bRest : List (StreamPoll P Bytes)) (bN' : Nat) (bCalls' : List Hash)
    (haside : sidePoll decode hashOf HeadUpdate.head_data respBest
        st.aDone st.aPolls st.aN st.aCalls = (none, aDone', aRest, aN', aCalls'))
    (hbDone : st.bDone = false)
    (hbside : followerPoll decode hashOf id respFin st.bPolls st.bN st.bCalls
        = (.error e, bRest, bN', bCalls')) :
    runTask decode hashOf respBest respFin (fuel + 1) st
      = (.completed (.error ()), some e,
         { st with aPolls := aRest, aN := aN', aCalls := aCalls', aDone := aDone',
                   bPolls := bRest, bN := bN', bCalls := bCalls' }) := by
  rw [runTask, joinPoll, haside]
  simp [sidePoll, hbDone, hbside]

/-- Witness for C4: the finalized stream's first item fails to decode (a
decode failure, not a stream error) while the best-head follower is idle
with an item already queued behind the not-ready poll; with three rounds of
spare fuel the queued best-head item is still never consumed. -/
theorem C4_witness :
    runTask (P := Nat) (decodeHead byteDecode) (fun h => h)
        (fun _ _ => (Except.ok true : Except Nat Bool)) (fun _ _ => Except.ok true) (3 + 1)
        (initSt ([.notReady, .item ⟨0, 0, [9]⟩] : List (StreamPoll Nat (HeadUpdate Nat Nat)))
          [.item [], .done])
      = (.completed (.error ()), some .InvalidHeadData,
         { aPolls := [.item ⟨0, 0, [9]⟩], aN := 0, aCalls := [], aDone := false,
           bPolls := [.done], bN := 0, bCalls := [], bDone := false }) :=
  C4_finalized_fault_stops_best_consumption (decodeHead byteDecode) (fun h => h)
    (fun _ _ => Except.ok true) (fun _ _ => Except.ok true) 3
    (initSt [.notReady, .item ⟨0, 0, [9]⟩] [.item [], .done])
    .InvalidHeadData false [.item ⟨0, 0, [9]⟩] 0 [] [.done] 0 []
    rfl rfl rfl

/-- Response oracles of the same Ok/Err shape drive the follower
identically: the boolean a call returns is bound to the unused `_synced`
and cannot influence anything. -/
theorem followerPoll_resp_shape (decode : Bytes → Option Header) (hashOf : Header → Hash)
    (extract : A → Bytes) (resp₁ resp₂ : Nat → Hash → Except C Bool)
    (hre : RespEquiv resp₁ resp₂) :
    ∀ (polls : List (StreamPoll P A)) (n : Nat) (calls : List Hash),
      followerPoll decode hashOf extract resp₁ polls n calls
        = followerPoll decode hashOf extract resp₂ polls n calls := by
  intro polls
  induction polls with
  | nil => intro n calls; rfl
  | cons s rest ih =>
    intro n calls
    cases s with
    | notReady => rfl
    | done => rfl
    | err e => rfl
    | item a =>
      rcases hd : decode (extract a) with _ | h
      · simp [followerPoll, hd]
      · rcases hre n (hashOf h) with ⟨b₁, b₂, h₁, h₂⟩ | ⟨e, h₁, h₂⟩
        · simp [followerPoll, hd, h₁, h₂, ih]
        · simp [followerPoll, hd, h₁, h₂]

/-- Lifting of response-shape equivalence through one side of the join. -/
theorem sidePoll_resp_shape (decode : Bytes → Option Header) (hashOf : Header → Hash)
    (extract : A → Bytes) (resp₁ resp₂ : Nat → Hash → Except C Bool)
    (hre : RespEquiv resp₁ resp₂) (doneFlag : Bool)
    (polls : List (StreamPoll P A)) (n : Nat) (calls : List Hash) :
    sidePoll decode hashOf extract resp₁ doneFlag polls n calls
      = sidePoll decode hashOf extract resp₂ doneFlag polls n calls := by
  rw [sidePoll, sidePoll, followerPoll_resp_shape decode hashOf extract resp₁ resp₂ hre]

/-- Lifting of response-shape equivalence through one poll of the join. -/
theorem joinPoll_resp_shape (decode : Bytes → Option Header) (hashOf : Header → Hash)
    (respB₁ respB₂ respF₁ respF₂ : Nat → Hash → Except C Bool)
    (hB : RespEquiv respB₁ respB₂) (hF : RespEquiv respF₁ respF₂)
    (st : JoinSt P PH PN Hash) :
    joinPoll decode hashOf respB₁ respF₁ st = joinPoll decode hashOf respB₂ respF₂ st := by
  rw [joinPoll, joinPoll,
    sidePoll_resp_shape decode hashOf HeadUpdate.head_data respB₁ respB₂ hB,
    sidePoll_resp_shape decode hashOf id respF₁ respF₂ hF]

/-- Lifting of response-shape equivalence through the whole driven task. -/
theorem runTask_resp_shape (decode : Bytes → Option Header) (hashOf : Header → Hash)
    (respB₁ respB₂ respF₁ respF₂ : Nat → Hash → Except C Bool)
    (hB : RespEquiv respB₁ respB₂) (hF : RespEquiv respF₁ respF₂)
    (fuel : Nat) (st : JoinSt P PH PN Hash) :
    runTask decode hashOf respB₁ respF₁ fuel st
      = runTask decode hashOf respB₂ respF₂ fuel st := by
  induction fuel generalizing st with
  | zero => rfl
  | succ n ih =>
    rw [runTask, runTask, joinPoll_resp_shape decode hashOf respB₁ respB₂ respF₁ respF₂ hB hF st]
    rcases joinPoll (C := C) decode hashOf respB₂ respF₂ st with ⟨out, st'⟩
    cases out with
    | ready => rfl
    | error e => rfl
    | notReady => exact ih st'

/-- C5: a mark_best or finalize call answering Ok(false) (unknown block)
never halts the task and changes nothing in its behaviour: runs whose
response oracles agree in Ok/Err shape — in particular any pattern of
Ok(false) answers against the same pattern of Ok(true) answers — produce
identical results, logs, call traces and final states, for any number of
consecutive false answers. -/
theorem C5_unknown_block_results_never_halt
    (d : DecodeRaw Header) (hashOf : Header → Hash)
    (respB₁ respB₂ respF₁ respF₂ : Nat → Hash → Except C Bool)
    (hB : RespEquiv respB₁ respB₂) (hF : RespEquiv respF₁ respF₂)
    (fuel : Nat) (aPolls : List (StreamPoll P (HeadUpdate PH PN)))
    (bPolls : List (StreamPoll P Bytes)) :
    follow_polkadot d hashOf respB₁ respF₁ fuel aPolls bPolls
      = follow_polkadot d hashOf respB₂ respF₂ fuel aPolls bPolls := by
  rw [follow_polkadot, follow_polkadot,
    runTask_resp_shape (decodeHead d) hashOf respB₁ respB₂ respF₁ respF₂ hB hF]

/-- Witness for C5: three best-head updates all answered Ok(false) behave
exactly as when all are answered Ok(true). -/
theorem C5_witness :
    follow_polkadot (P := Nat) (C := Nat) byteDecode (fun h => h)
        (fun _ _ => Except.ok false) (fun _ _ => Except.ok false) 1
        (([⟨0, 0, [5]⟩, ⟨1, 1, [6]⟩, ⟨2, 2, [7]⟩] : List (HeadUpdate Nat Nat)).map .item
          ++ [.done]) [.done]
      = follow_polkadot byteDecode (fun h => h)
        (fun _ _ => Except.ok true) (fun _ _ => Except.ok true) 1
        (([⟨0, 0, [5]⟩, ⟨1, 1, [6]⟩, ⟨2, 2, [7]⟩] : List (HeadUpdate Nat Nat)).map .item
          ++ [.done]) [.done] :=
  C5_unknown_block_results_never_halt byteDecode (fun h => h)
    (fun _ _ => Except.ok false) (fun _ _ => Except.ok true)
    (fun _ _ => Except.ok false) (fun _ _ => Except.ok true)
    (fun _ _ => .inl ⟨false, true, rfl, rfl⟩) (fun _ _ => .inl ⟨false, true, rfl, rfl⟩)
    1 _ _

/-- C6: the task completes successfully exactly when both followers end
normally, and if either follower stops with an error the whole unit halts
at that first fault: a best-head fault resolves the task with that error
logged (before the finalized follower is even polled), and a finalized
fault with the best-head follower not erring does the same; there is no
partial-success outcome. -/
theorem C6_success_iff_both_end_normally
    (d : DecodeRaw Header) (hashOf : Header → Hash)
    (respBest respFin : Nat → Hash → Except C Bool)
    (aPolls : List (StreamPoll P (HeadUpdate PH PN))) (bPolls : List (StreamPoll P Bytes)) :
    ((follow_polkadot d hashOf respBest respFin 1 aPolls bPolls).1 = .completed (.ok ())
      ↔ ((followerPoll (decodeHead d) hashOf HeadUpdate.head_data respBest aPolls 0 []).1 = .ready
        ∧ (followerPoll (decodeHead d) hashOf id respFin bPolls 0 []).1 = .ready))
    ∧ (∀ e, (followerPoll (decodeHead d) hashOf HeadUpdate.head_data respBest aPolls 0 []).1 = .error e
        → (follow_polkadot d hashOf respBest respFin 1 aPolls bPolls).1 = .completed (.error ())
          ∧ (follow_polkadot d hashOf respBest respFin 1 aPolls bPolls).2.1 = some e)
    ∧ (∀ e, (∀ e', (followerPoll (decodeHead d) hashOf HeadUpdate.head_data respBest aPolls 0 []).1 ≠ .error e')
        → (followerPoll (decodeHead d) hashOf id respFin bPolls 0 []).1 = .error e
        → (follow_polkadot d hashOf respBest respFin 1 aPolls bPolls).1 = .completed (.error ())
          ∧ (follow_polkadot d hashOf respBest respFin 1 aPolls bPolls).2.1 = some e) := by
  rcases ha : followerPoll (decodeHead d) hashOf HeadUpdate.head_data respBest aPolls 0 []
    with ⟨aOut, aRest, aN', aCalls'⟩
  rcases hb : followerPoll (decodeHead d) hashOf id respFin bPolls 0 []
    with ⟨bOut, bRest, bN', bCalls'⟩
  cases aOut <;> cases bOut <;>
    simp [follow_polkadot, runTask, joinPoll, initSt, sidePoll, ha, hb]

/-- Witness for C6 at concrete inputs: a clean pair of streams completes
successfully, and a finalized-stream fault with a clean best stream halts
the task with that fault logged. -/
theorem C6_witness :
    (follow_polkadot (C := Nat) byteDecode (fun h => h)
        (fun _ _ => Except.ok true) (fun _ _ => Except.ok true) 1
        ([.item ⟨0, 0, [5]⟩, .done] : List (StreamPoll Nat (HeadUpdate Nat Nat)))
        [.err 7]).1 = .completed (.error ())
    ∧ (follow_polkadot (C := Nat) byteDecode (fun h => h)
        (fun _ _ => Except.ok true) (fun _ _ => Except.ok true) 1
        ([.item ⟨0, 0, [5]⟩, .done] : List (StreamPoll Nat (HeadUpdate Nat Nat)))
        [.err 7]).2.1 = some (.Polkadot 7) := by
  have h := C6_success_iff_both_end_normally (C := Nat) byteDecode (fun h => h)
    (fun _ _ => Except.ok true) (fun _ _ => Except.ok true)
    ([.item ⟨0, 0, [5]⟩, .done] : List (StreamPoll Nat (HeadUpdate Nat Nat))) [.err 7]
  exact h.2.2 (.Polkadot 7)
    (by intro e' he'; exact absurd he' (by simp [followerPoll, decodeHead, byteDecode])) rfl

/-- C7, counterexample: head_data need not be consumed as a whole.  With a
codec whose headers occupy one byte, the bytes [5, 99] decode at the call
site to the header 5 while leaving the trailing byte [99] unexamined, and
the follower accepts the update and dispatches the call instead of
rejecting it with InvalidHeadData. -/
theorem C7_counterexample :
    decodeHead byteDecode [5, 99] = some 5
    ∧ byteDecode [5, 99] = some (5, [99])
    ∧ ([99] : Bytes) ≠ []
    ∧ followerPoll (P := Nat) (decodeHead byteDecode) (fun h => h) id
        (fun _ _ => (Except.ok true : Except Nat Bool)) [.item [5, 99], .done] 0 []
      = (.ready, [], 1, [5]) := by
  exact ⟨rfl, rfl, by simp, rfl⟩

/-- C7, amended: head_data must decode to a header from a prefix of the
payload, or the update is rejected with InvalidHeadData; nothing more: a
successful prefix decode is accepted as-is, trailing bytes after the
decoded header are discarded without inspection rather than rejected, and
only a decode failure rejects the update. -/
theorem C7_prefix_decode_or_invalid_head_data
    (d : DecodeRaw Header) (hashOf : Header → Hash) (extract : A → Bytes)
    (resp : Nat → Hash → Except C Bool) :
    (∀ b h rest', d b = some (h, rest') → decodeHead d b = some h)
    ∧ (∀ b, d b = none → decodeHead d b = none)
    ∧ (∀ (a : A) (tail : List (StreamPoll P A)) (n : Nat) (calls : List Hash),
        decodeHead d (extract a) = none →
        followerPoll (decodeHead d) hashOf extract resp (.item a :: tail) n calls
          = (.error .InvalidHeadData, tail, n, calls)) := by
  refine ⟨fun b h rest' hd => by simp [decodeHead, hd],
    fun b hd => by simp [decodeHead, hd],
    fun a tail n calls hd => by simp [followerPoll, hd]⟩

/-- Witness for C7's amended statement: a prefix decode with leftover is
accepted, an empty payload fails to decode, and the follower rejects a
failing update with InvalidHeadData making no call. -/
theorem C7_witness :
    decodeHead byteDecode [5, 99] = some 5
    ∧ decodeHead byteDecode [] = none
    ∧ followerPoll (P := Nat) (decodeHead byteDecode) (fun h => h) HeadUpdate.head_data
        (fun _ _ => (Except.ok true : Except Nat Bool))
        (.item (⟨1, 1, []⟩ : HeadUpdate Nat Nat) :: [.done]) 0 []
      = (.error .InvalidHeadData, [.done], 0, []) := by
  have h := C7_prefix_decode_or_invalid_head_data (P := Nat) byteDecode (fun h => h)
    (fun (u : HeadUpdate Nat Nat) => u.head_data) (fun _ _ => (Except.ok true : Except Nat Bool))
  exact ⟨h.1 [5, 99] 5 [99] rfl, h.2.1 [] rfl, h.2.2 ⟨1, 1, []⟩ [.done] 0 [] rfl⟩

/-- C9: decoding is deterministic and state-free: two decode attempts on
equal head bytes — here the decode steps of two updates carrying the same
head_data — produce the same outcome, and the follower's processing of the
two updates is identical, whatever the call count and trace so far. -/
theorem C9_decode_deterministic
    (d : DecodeRaw Header) (hashOf : Header → Hash)
    (resp : Nat → Hash → Except C Bool) (u₁ u₂ : HeadUpdate PH PN)
    (h : u₁.head_data = u₂.head_data)
    (tail : List (StreamPoll P (HeadUpdate PH PN))) (n : Nat) (calls : List Hash) :
    decodeHead d u₁.head_data = decodeHead d u₂.head_data
    ∧ followerPoll (decodeHead d) hashOf HeadUpdate.head_data resp (.item u₁ :: tail) n calls
      = followerPoll (decodeHead d) hashOf HeadUpdate.head_data resp (.item u₂ :: tail) n calls := by
  refine ⟨by rw [h], ?_⟩
  simp only [followerPoll, h]

/-- Witness for C9: two updates with the same head bytes and different
provenance decode alike and are processed alike. -/
theorem C9_witness :
    decodeHead byteDecode (HeadUpdate.head_data (⟨0, 0, [5]⟩ : HeadUpdate Nat Nat))
      = decodeHead byteDecode (HeadUpdate.head_data (⟨42, 7, [5]⟩ : HeadUpdate Nat Nat))
    ∧ followerPoll (P := Nat) (decodeHead byteDecode) (fun h => h) HeadUpdate.head_data
        (fun _ _ => (Except.ok true : Except Nat Bool))
        (.item ⟨0, 0, [5]⟩ :: [.done]) 0 []
      = followerPoll (decodeHead byteDecode) (fun h => h) HeadUpdate.head_data
        (fun _ _ => (Except.ok true : Except Nat Bool))
        (.item ⟨42, 7, [5]⟩ :: [.done]) 0 [] :=
  C9_decode_deterministic byteDecode (fun h => h) (fun _ _ => Except.ok true)
    ⟨0, 0, [5]⟩ ⟨42, 7, [5]⟩ rfl [.done] 0 []

/-- The best-head follower is oblivious to provenance: running it on the
provenance-stripped stream gives the same outcome, call count and trace,
with the remaining polls likewise stripped. -/
theorem followerPoll_stripU (decode : Bytes → Option Header) (hashOf : Header → Hash)
    (resp : Nat → Hash → Except C Bool) :
    ∀ (polls : List (StreamPoll P (HeadUpdate PH PN))) (n : Nat) (calls : List Hash),
      followerPoll decode hashOf HeadUpdate.head_data resp (polls.map (mapPoll stripU)) n calls
        = ((followerPoll decode hashOf HeadUpdate.head_data resp polls n calls).1,
           (followerPoll decode hashOf HeadUpdate.head_data resp polls n calls).2.1.map (mapPoll stripU),
           (followerPoll decode hashOf HeadUpdate.head_data resp polls n calls).2.2) := by
  intro polls
  induction polls with
  | nil => intro n calls; rfl
  | cons s rest ih =>
    intro n calls
    cases s with
    | notReady => rfl
    | done => rfl
    | err e => rfl
    | item u =>
      simp only [List.map_cons, mapPoll]
      rcases hd : decode u.head_data with _ | h
      · simp [followerPoll, stripU, hd]
      · rcases hr : resp n (hashOf h) with e | b
        · simp [followerPoll, stripU, hd, hr]
        · simp [followerPoll, stripU, hd, hr, ih]

/-- Provenance obliviousness lifted through one side of the join. -/
theorem sidePoll_stripU (decode : Bytes → Option Header) (hashOf : Header → Hash)
    (resp : Nat → Hash → Except C Bool) (doneFlag : Bool)
    (polls : List (StreamPoll P (HeadUpdate PH PN))) (n : Nat) (calls : List Hash) :
    sidePoll decode hashOf HeadUpdate.head_data resp doneFlag (polls.map (mapPoll stripU)) n calls
      = ((sidePoll decode hashOf HeadUpdate.head_data resp doneFlag polls n calls).1,
         (sidePoll decode hashOf HeadUpdate.head_data resp doneFlag polls n calls).2.1,
         (sidePoll decode hashOf HeadUpdate.head_data resp doneFlag polls n calls).2.2.1.map (mapPoll stripU),
         (sidePoll decode hashOf HeadUpdate.head_data resp doneFlag polls n calls).2.2.2) := by
  cases doneFlag with
  | true => rfl
  | false =>
    rw [sidePoll, sidePoll, followerPoll_stripU decode hashOf resp polls n calls]
    rcases followerPoll decode hashOf HeadUpdate.head_data resp polls n calls
      with ⟨out, rest, n', calls'⟩
    cases out <;> rfl

/-- Provenance obliviousness lifted through one poll of the join. -/
theorem joinPoll_stripSt (decode : Bytes → Option Header) (hashOf : Header → Hash)
    (respBest respFin : Nat → Hash → Except C Bool) (st : JoinSt P PH PN Hash) :
    joinPoll decode hashOf respBest respFin (stripSt st)
      = ((joinPoll decode hashOf respBest respFin st).1,
         stripSt (joinPoll decode hashOf respBest respFin st).2) := by
  rw [joinPoll, joinPoll]
  have hside := sidePoll_stripU decode hashOf respBest st.aDone st.aPolls st.aN st.aCalls
  rw [show (stripSt st).aPolls = st.aPolls.map (mapPoll stripU) from rfl,
    show (stripSt st).aDone = st.aDone from rfl,
    show (stripSt st).aN = st.aN from rfl,
    show (stripSt st).aCalls = st.aCalls from rfl,
    show (stripSt st).bPolls = st.bPolls from rfl,
    show (stripSt st).bDone = st.bDone from rfl,
    show (stripSt st).bN = st.bN from rfl,
    show (stripSt st).bCalls = st.bCalls from rfl, hside]
  rcases sidePoll decode hashOf HeadUpdate.head_data respBest st.aDone st.aPolls st.aN st.aCalls
    with ⟨aErr, aDone', aRest, aN', aCalls'⟩
  cases aErr with
  | some e => simp [stripSt]
  | none =>
    rcases sidePoll decode hashOf id respFin st.bDone st.bPolls st.bN st.bCalls
      with ⟨bErr, bDone', bRest, bN', bCalls'⟩
    cases bErr with
    | some e => simp [stripSt]
    | none => cases aDone' <;> cases bDone' <;> simp [stripSt]

/-- Provenance obliviousness lifted through the whole driven task. -/
theorem runTask_stripSt (decode : Bytes → Option Header) (hashOf : Header → Hash)
    (respBest respFin : Nat → Hash → Except C Bool)
    (fuel : Nat) (st : JoinSt P PH PN Hash) :
    runTask decode hashOf respBest respFin fuel (stripSt st)
      = ((runTask decode hashOf respBest respFin fuel st).1,
         (runTask decode hashOf respBest respFin fuel st).2.1,
         stripSt (runTask decode hashOf respBest respFin fuel st).2.2) := by
  induction fuel generalizing st with
  | zero => rfl
  | succ n ih =>
    rw [runTask, runTask, joinPoll_stripSt decode hashOf respBest respFin st]
    rcases hj : joinPoll (C := C) decode hashOf respBest respFin st with ⟨out, st'⟩
    cases out with
    | ready => rfl
    | error e => rfl
    | notReady => exact ih st'

/-- C10: the task never reads a best-head update's relay_hash or
relay_number: two best-head poll sequences that agree pointwise on
head_data (equal after stripping provenance) yield the same task result,
the same logged error, the same mark_best and finalize call traces and
call counts, and final states equal up to the stripped leftover polls. -/
theorem C10_provenance_never_read
    (d : DecodeRaw Header) (hashOf : Header → Hash)
    (respBest respFin : Nat → Hash → Except C Bool) (fuel : Nat)
    (aPolls₁ aPolls₂ : List (StreamPoll P (HeadUpdate PH PN)))
    (bPolls : List (StreamPoll P Bytes))
    (hsame : aPolls₁.map (mapPoll stripU) = aPolls₂.map (mapPoll stripU)) :
    (follow_polkadot d hashOf respBest respFin fuel aPolls₁ bPolls).1
      = (follow_polkadot d hashOf respBest respFin fuel aPolls₂ bPolls).1
    ∧ (follow_polkadot d hashOf respBest respFin fuel aPolls₁ bPolls).2.1
      = (follow_polkadot d hashOf respBest respFin fuel aPolls₂ bPolls).2.1
    ∧ (follow_polkadot d hashOf respBest respFin fuel aPolls₁ bPolls).2.2.aCalls
      = (follow_polkadot d hashOf respBest respFin fuel aPolls₂ bPolls).2.2.aCalls
    ∧ (follow_polkadot d hashOf respBest respFin fuel aPolls₁ bPolls).2.2.bCalls
      = (follow_polkadot d hashOf respBest respFin fuel aPolls₂ bPolls).2.2.bCalls
    ∧ stripSt (follow_polkadot d hashOf respBest respFin fuel aPolls₁ bPolls).2.2
      = stripSt (follow_polkadot d hashOf respBest respFin fuel aPolls₂ bPolls).2.2 := by
  have h₁ := runTask_stripSt (decodeHead d) hashOf respBest respFin fuel (initSt aPolls₁ bPolls)
  have h₂ := runTask_stripSt (decodeHead d) hashOf respBest respFin fuel (initSt aPolls₂ bPolls)
  have hinit : stripSt (initSt aPolls₁ bPolls : JoinSt P PH PN Hash)
      = stripSt (initSt aPolls₂ bPolls) := by
    simp [stripSt, initSt, hsame]
  rw [hinit, h₂] at h₁
  have hs := h₁.symm
  have e1 := congrArg Prod.fst hs
  have e2 := congrArg (fun t => t.2.1) hs
  have e3 := congrArg (fun t => t.2.2) hs
  simp only [follow_polkadot]
  simp only at e1 e2 e3
  refine ⟨e1, e2, ?_, ?_, e3⟩
  · simpa [stripSt] using congrArg JoinSt.aCalls e3
  · simpa [stripSt] using congrArg JoinSt.bCalls e3

/-- Witness for C10: two single-update streams whose updates differ only in
relay provenance drive the task identically. -/
theorem C10_witness :
    (follow_polkadot (C := Nat) byteDecode (fun h => h)
        (fun _ _ => Except.ok true) (fun _ _ => Except.ok true) 1
        ([.item ⟨0, 0, [5]⟩, .done] : List (StreamPoll Nat (HeadUpdate Nat Nat)))
        [.done]).1
      = (follow_polkadot (C := Nat) byteDecode (fun h => h)
        (fun _ _ => Except.ok true) (fun _ _ => Except.ok true) 1
        ([.item ⟨77, 123, [5]⟩, .done] : List (StreamPoll Nat (HeadUpdate Nat Nat)))
        [.done]).1 := by
  have h := C10_provenance_never_read (C := Nat) byteDecode (fun h => h)
    (fun _ _ => Except.ok true) (fun _ _ => Except.ok true) 1
    ([.item ⟨0, 0, [5]⟩, .done] : List (StreamPoll Nat (HeadUpdate Nat Nat)))
    [.item ⟨77, 123, [5]⟩, .done] [.done] rfl
  exact h.1

end CumulusConsensus
